import Mathlib

/-!
Verification of the GEventos backend's event-layout reconciliation engine
(`src/routes/eventRoutes.js`: `PUT /:eventoID/layout`, `GET /:eventoID/layout`,
`DELETE /:eventoID/areas/:areaID`) against its specification.

The database (Postgres, `src/schema.sql`) is embedded as lists of rows:
`Lugar` (only its primary key matters to these routes), `Evento`, `Area`,
`Asiento`, and `Croquis`.  SERIAL id allocation is modelled by `nextAreaID`
and `nextAsientoID` counters.  The Postgres enum types `estado_asiento` and
`tipo_area` are modelled by membership checks on insert/update: binding a
parameter of an enum type to a string outside the enumeration raises an
error, which aborts the surrounding transaction.  SQL joins are embedded as
`List.bind` over the row lists, `WHERE` clauses as filters, and
`ORDER BY a.asientoID ASC` as an insertion sort on the seat id.

JavaScript dynamic values are embedded where the routes inspect them:
a field that may be `undefined` becomes an `Option`, `asiento.asientoID`
(which may be `undefined`, a number, or a string) becomes `SeatId`, and
JavaScript truthiness (`x || d`, `x || null`) is spelled out per type.
Node-postgres parameter binding casts a string parameter compared against an
integer column (`a.asientoID = $1`) with Postgres integer-cast semantics:
a numeric string is cast, any other string raises, aborting the transaction;
this is `seatIdAsInt`.
-/

namespace GEventos

/-- A `Lugar` (venue) row: only the primary key `lugarID` is read by the
layout routes (the `JOIN Lugar` only tests existence), so a venue is
embedded as its id. -/
abbrev LugarId := Int

/-- An `Evento` row, restricted to the columns the layout routes read
(`SELECT eventoID, lugarID AS lugarid FROM Evento`). `lugarID` is
`NOT NULL` in the schema. -/
structure Evento where
  eventoID : Int
  lugarID : Int
deriving DecidableEq, Repr

/-- An `Area` row (`areaID SERIAL, nombre, capacidad, tipo tipo_area,
lugarID`). -/
structure Area where
  areaID : Int
  nombre : String
  capacidad : Int
  tipo : String
  lugarID : Int
deriving DecidableEq, Repr

/-- An `Asiento` row (`asientoID SERIAL, codigo, fila, columna,
estado estado_asiento, areaID`).  `fila` and `columna` are nullable. -/
structure Asiento where
  asientoID : Int
  codigo : String
  fila : Option Int
  columna : Option Int
  estado : String
  areaID : Int
deriving DecidableEq, Repr

/-- A table/area descriptor inside the layout document
(`configuracionCroquis.tables[i]`), restricted to the fields the routes
inspect: `id`, `areaid`, `nombre`, `capacidad`, `tipo`.  Each is optional
because the client JSON may omit it. -/
structure TableEntry where
  id : Option String
  areaid : Option Int
  nombre : Option String
  capacidad : Option Int
  tipo : Option String
deriving DecidableEq, Repr

/-- The layout document (`configuracionCroquis`): an object whose recognized
shape is `{ tables: [...] }`; `tables` may be absent. -/
structure LayoutConfig where
  tables : Option (List TableEntry)
deriving DecidableEq, Repr

/-- A `Croquis` row: `eventoID UNIQUE` plus the JSON `configuracion`. -/
structure CroquisRow where
  eventoID : Int
  configuracion : LayoutConfig
deriving DecidableEq, Repr

/-- The JavaScript value of `asiento.asientoID`: `undefined`, a number, or a
string. -/
inductive SeatId where
  | undef : SeatId
  | num : Int → SeatId
  | str : String → SeatId
deriving DecidableEq, Repr

/-- A seat descriptor from the submitted `asientos` array.  `areaID` and
`areaid` are the two property casings the route checks
(`asiento.areaID === tempAreaId || asiento.areaid === tempAreaId`). -/
structure SeatInput where
  asientoID : SeatId
  isNew : Bool
  codigo : String
  fila : Option Int
  columna : Option Int
  estado : String
  areaID : Option Int
  areaid : Option Int
deriving DecidableEq, Repr

/-- The database state visible to the layout routes. -/
structure DBState where
  lugares : List LugarId
  eventos : List Evento
  areas : List Area
  asientos : List Asiento
  croquis : List CroquisRow
  nextAreaID : Int
  nextAsientoID : Int
deriving DecidableEq, Repr

/-- The values of the Postgres enum `estado_asiento`. -/
def estadoAsientoValues : List String :=
  ["DISPONIBLE", "OCUPADO", "RESERVADO", "BLOQUEADO"]

/-- The values of the Postgres enum `tipo_area`. -/
def tipoAreaValues : List String :=
  ["GENERAL", "VIP", "ESCENARIO", "RESERVADO"]

/-- JavaScript `x || d` for an optional number (`0` is falsy). -/
def jsOrInt : Option Int → Int → Int
  | some n, d => if n = 0 then d else n
  | none, d => d

/-- JavaScript `x || d` for an optional string (`""` is falsy). -/
def jsOrStr : Option String → String → String
  | some s, d => if s = "" then d else s
  | none, d => d

/-- JavaScript `x || null` for an optional number (`asiento.fila || null`). -/
def jsOrNull : Option Int → Option Int
  | some n => if n = 0 then none else some n
  | none => none

/-- JavaScript `String.prototype.toUpperCase()`: uppercase each character
(character-by-character, as a structural list map so that it computes by
kernel reduction; on the ASCII strings these routes handle this agrees with
the JavaScript behaviour). -/
def jsToUpper (s : String) : String := String.mk (s.data.map Char.toUpper)

/-- The string a template literal renders for `table.nombre || table.id`
(`undefined` interpolates as `"undefined"`). -/
def tableDisplayName (t : TableEntry) : String :=
  match t.nombre with
  | some s =>
      if s = "" then (match t.id with | some i => i | none => "undefined") else s
  | none => match t.id with | some i => i | none => "undefined"

/-- The temporary-area detection of the area loop:
`(table.areaid && typeof table.areaid === 'number' && table.areaid > 1000000000)
 || (table.id && table.id.startsWith('new-table-'))`. -/
def isTempTable (t : TableEntry) : Bool :=
  (match t.areaid with
   | some n => !(n = 0) && decide (n > 1000000000)
   | none => false)
  ||
  (match t.id with
   | some s => !(s = "") && s.startsWith "new-table-"
   | none => false)

/-- The temporary-seat heuristic of the seat loop:
`asiento.asientoID === undefined
 || (typeof asiento.asientoID === 'number' && asiento.asientoID > 1000000000)
 || asiento.isNew`. -/
def isNewSeat (a : SeatInput) : Bool :=
  (match a.asientoID with | .undef => true | _ => false)
  || (match a.asientoID with | .num n => decide (n > 1000000000) | _ => false)
  || a.isNew

/-- Errors that abort the transaction (Postgres faults surfaced to the
route's `catch`, which issues `ROLLBACK`). -/
inductive TxErr where
  | enumViolation : TxErr
  | fkViolation : TxErr
  | intCastError : TxErr
deriving DecidableEq, Repr

/-- `INSERT INTO Area (nombre, capacidad, tipo, lugarID) VALUES ($1,$2,$3,$4)
RETURNING areaID` with the route's parameters
`[`Área ${table.nombre || table.id}`, table.capacidad || 50,
table.tipo || 'GENERAL', lugarIDDelEvento]`.  Binding `tipo` to a string
outside `tipo_area` raises. -/
def insertArea (lugar : Int) (st : DBState) (t : TableEntry) :
    Except TxErr (DBState × Int) :=
  let nombre := "Área " ++ tableDisplayName t
  let cap := jsOrInt t.capacidad 50
  let tipo := jsOrStr t.tipo "GENERAL"
  if tipo ∈ tipoAreaValues then
    let r := st.nextAreaID
    .ok ({ st with
            areas := st.areas ++ [⟨r, nombre, cap, tipo, lugar⟩],
            nextAreaID := r + 1 }, r)
  else .error .enumViolation

/-- The `asientos.forEach` rewrite run after a temporary area is created:
seats whose `areaID` or `areaid` strictly equals the temporary id get both
fields set to the real id. -/
def rewriteSeat (tempAreaId : Option Int) (r : Int) (a : SeatInput) : SeatInput :=
  if a.areaID = tempAreaId ∨ a.areaid = tempAreaId then
    { a with areaID := some r, areaid := some r }
  else a

/-- The `for (let i = 0; ...)` loop over `configuracionCroquis.tables`:
each entry detected as temporary triggers an `INSERT INTO Area`, the entry's
`areaid`/`id` are rewritten to the real id, and the submitted seat list is
rewritten in place before the next entry is visited. -/
def processTables (lugar : Int) :
    DBState → List TableEntry → List SeatInput →
    Except TxErr (DBState × List TableEntry × List SeatInput)
  | st, [], as => .ok (st, [], as)
  | st, t :: rest, as =>
    if isTempTable t then
      match insertArea lugar st t with
      | .error e => .error e
      | .ok (st1, r) =>
        let t2 := { t with areaid := some r, id := some ("area-" ++ toString r) }
        let as1 := as.map (rewriteSeat t.areaid r)
        match processTables lugar st1 rest as1 with
        | .error e => .error e
        | .ok (st2, rest2, as2) => .ok (st2, t2 :: rest2, as2)
    else
      match processTables lugar st rest as with
      | .error e => .error e
      | .ok (st2, rest2, as2) => .ok (st2, t :: rest2, as2)

/-- Step 2 of the reconciler: run the temporary-area loop when
`configuracionCroquis && configuracionCroquis.tables &&
Array.isArray(configuracionCroquis.tables)`. -/
def areaPhase (lugar : Int) (st : DBState) (conf : Option LayoutConfig)
    (as : List SeatInput) :
    Except TxErr (DBState × Option LayoutConfig × List SeatInput) :=
  match conf with
  | none => .ok (st, none, as)
  | some c =>
    match c.tables with
    | none => .ok (st, some c, as)
    | some ts =>
      match processTables lugar st ts as with
      | .error e => .error e
      | .ok (st1, ts2, as1) => .ok (st1, some ⟨some ts2⟩, as1)

/-- Step 3: upsert the `Croquis` row when `configuracionCroquis !== undefined`
(`UPDATE Croquis SET configuracion = $1 WHERE eventoID = $2` if a row exists,
else `INSERT INTO Croquis(eventoID, configuracion, ...)`). -/
def upsertCroquis (st : DBState) (evID : Int) (conf : Option LayoutConfig) :
    DBState :=
  match conf with
  | none => st
  | some c =>
    if st.croquis.any (fun row => row.eventoID = evID) then
      let upd := fun (row : CroquisRow) =>
        if row.eventoID = evID then { row with configuracion := c } else row
      { st with croquis := st.croquis.map upd }
    else { st with croquis := st.croquis ++ [⟨evID, c⟩] }

/-- The `seatEventCheck` query:
`SELECT a.asientoID FROM Asiento a JOIN Area ar ON a.areaID = ar.areaID
WHERE a.asientoID = $1 AND ar.lugarID = $2` has at least one row. -/
def seatBelongs (st : DBState) (n lugar : Int) : Bool :=
  st.asientos.any (fun row => row.asientoID = n &&
    st.areas.any (fun ar => ar.areaID = row.areaID && ar.lugarID = lugar))

/-- Decimal-digit accumulator for `pgIntCast` (structurally recursive so it
computes by kernel reduction). -/
def pgDigitsAux : List Char → Nat → Option Nat
  | [], acc => some acc
  | c :: cs, acc =>
    if c.isDigit then pgDigitsAux cs (acc * 10 + (c.toNat - 48)) else none

/-- Postgres cast of a string literal to an integer: an optional sign
followed by decimal digits; anything else raises `22P02`. -/
def pgIntCast (s : String) : Option Int :=
  match s.data with
  | [] => none
  | '-' :: cs =>
    if cs = [] then none else (pgDigitsAux cs 0).map (fun n => -(n : Int))
  | '+' :: cs =>
    if cs = [] then none else (pgDigitsAux cs 0).map (fun n => (n : Int))
  | cs => (pgDigitsAux cs 0).map (fun n => (n : Int))

/-- Postgres integer-cast of the `$1` parameter bound to `a.asientoID`:
numbers pass through, numeric strings are cast, other strings raise. -/
def seatIdAsInt : SeatId → Option Int
  | .num n => some n
  | .str s => pgIntCast s
  | .undef => none

/-- One iteration of the `for (const asiento of asientos)` loop:
new seats (per `isNewSeat`) are skipped when `!asiento.areaID ||
isNaN(parseInt(asiento.areaID)) || parseInt(asiento.areaID) <= 0`, else
inserted (`estado` is uppercased; an enum or foreign-key fault raises);
existing seats are updated (`SET estado`) only when `seatEventCheck` finds
them under the event's venue, else skipped with a warning. -/
def processAsiento (lugar : Int) (st : DBState) (a : SeatInput) :
    Except TxErr DBState :=
  if isNewSeat a then
    match a.areaID with
    | none => .ok st
    | some n =>
      if n ≤ 0 then .ok st
      else if jsToUpper a.estado ∈ estadoAsientoValues then
        if st.areas.any (fun ar => ar.areaID = n) then
          .ok { st with
                 asientos := st.asientos ++
                   [⟨st.nextAsientoID, a.codigo, jsOrNull a.fila,
                     jsOrNull a.columna, jsToUpper a.estado, n⟩],
                 nextAsientoID := st.nextAsientoID + 1 }
        else .error .fkViolation
      else .error .enumViolation
  else
    match seatIdAsInt a.asientoID with
    | none => .error .intCastError
    | some n =>
      if seatBelongs st n lugar then
        if jsToUpper a.estado ∈ estadoAsientoValues then
          let upd := fun (row : Asiento) =>
            if row.asientoID = n then { row with estado := jsToUpper a.estado }
            else row
          .ok { st with asientos := st.asientos.map upd }
        else .error .enumViolation
      else .ok st

/-- Step 4: the seat loop. -/
def seatLoop (lugar : Int) : DBState → List SeatInput → Except TxErr DBState
  | st, [] => .ok st
  | st, a :: rest =>
    match processAsiento lugar st a with
    | .error e => .error e
    | .ok st1 => seatLoop lugar st1 rest

/-- The transactional body of `PUT /:eventoID/layout` (steps 2–4 between
`BEGIN` and `COMMIT`): temporary-area creation and remapping, croquis
upsert, then the seat loop over the rewritten seat list. -/
def reconcileTx (lugar evID : Int) (st : DBState) (conf : Option LayoutConfig)
    (as : List SeatInput) : Except TxErr DBState :=
  match areaPhase lugar st conf as with
  | .error e => .error e
  | .ok (st1, conf1, as1) => seatLoop lugar (upsertCroquis st1 evID conf1) as1

/-- `SELECT configuracion FROM Croquis WHERE eventoID = $1`, rendered as the
routes render it (`rows[0] ? rows[0].configuracion : null`). -/
def croquisConfig (st : DBState) (evID : Int) : Option LayoutConfig :=
  ((st.croquis.filter (fun row => decide (row.eventoID = evID))).head?).map
    (fun row => row.configuracion)

/-- Insertion step for `ORDER BY a.asientoID ASC`. -/
def insertByAsientoID (a : Asiento) : List Asiento → List Asiento
  | [] => [a]
  | b :: rest =>
    if a.asientoID ≤ b.asientoID then a :: b :: rest
    else b :: insertByAsientoID a rest

/-- `ORDER BY a.asientoID ASC` as an insertion sort. -/
def sortAsientos : List Asiento → List Asiento
  | [] => []
  | a :: rest => insertByAsientoID a (sortAsientos rest)

/-- The seat query of the `PUT` response:
`FROM Asiento a JOIN Area ar ON a.areaID = ar.areaID
JOIN Evento e ON ar.lugarID = e.lugarID WHERE e.eventoID = $1
ORDER BY a.asientoID ASC`. -/
def seatsQueryPut (st : DBState) (evID : Int) : List Asiento :=
  sortAsientos (st.asientos.flatMap (fun a =>
    (st.areas.filter (fun ar => decide (ar.areaID = a.areaID))).flatMap (fun ar =>
      (st.eventos.filter (fun e =>
        decide (ar.lugarID = e.lugarID ∧ e.eventoID = evID))).map
        (fun _ => a))))

/-- The seat query of the `GET` route:
`FROM Asiento a JOIN Area ar ON a.areaID = ar.areaID
JOIN Lugar l ON ar.lugarID = l.lugarID JOIN Evento e ON l.lugarID = e.lugarID
WHERE e.eventoID = $1 ORDER BY a.asientoID ASC`. -/
def seatsQueryGet (st : DBState) (evID : Int) : List Asiento :=
  sortAsientos (st.asientos.flatMap (fun a =>
    (st.areas.filter (fun ar => decide (ar.areaID = a.areaID))).flatMap (fun ar =>
      (st.lugares.filter (fun l => decide (ar.lugarID = l))).flatMap (fun l =>
        (st.eventos.filter (fun e =>
          decide (l = e.lugarID ∧ e.eventoID = evID))).map
          (fun _ => a)))))

/-- Result of `GET /:eventoID/layout`. -/
inductive GetResult where
  | notFound : GetResult
  | ok : Option LayoutConfig → List Asiento → GetResult
deriving DecidableEq, Repr

/-- `GET /:eventoID/layout`: 404 when the event does not exist, else the
croquis configuration (or null) and the venue's seats. -/
def getLayout (st : DBState) (evID : Int) : GetResult :=
  if st.eventos.any (fun e => e.eventoID = evID) then
    .ok (croquisConfig st evID) (seatsQueryGet st evID)
  else .notFound

/-- Result of `PUT /:eventoID/layout`. -/
inductive PutResult where
  | notFound : PutResult
  | badRequest : PutResult
  | ok : Option LayoutConfig → List Asiento → PutResult
  | serverError : PutResult
deriving DecidableEq, Repr

/-- `PUT /:eventoID/layout`.  The event lookup and payload validation happen
before `BEGIN`; a transaction error triggers `ROLLBACK` (the state reverts
to the pre-transaction state) and a 500; on success `COMMIT` makes the new
state durable and the response is built from post-commit re-reads.
`finalReadFails` injects an I/O fault into those post-commit re-reads: the
`catch` then issues a `ROLLBACK` (a no-op after `COMMIT`) and answers 500,
while the committed state persists. -/
def putLayout (st : DBState) (evID : Int) (conf : Option LayoutConfig)
    (asientos : Option (List SeatInput)) (finalReadFails : Bool) :
    DBState × PutResult :=
  match st.eventos.filter (fun e => decide (e.eventoID = evID)) with
  | [] => (st, .notFound)
  | e :: _ =>
    match asientos with
    | none => (st, .badRequest)
    | some as =>
      match reconcileTx e.lugarID evID st conf as with
      | .error _ => (st, .serverError)
      | .ok st1 =>
        if finalReadFails then (st1, .serverError)
        else (st1, .ok (croquisConfig st1 evID) (seatsQueryPut st1 evID))

/-- Result of `DELETE /:eventoID/areas/:areaID`. -/
inductive DeleteResult where
  | badRequest : DeleteResult
  | notFoundEvent : DeleteResult
  | notFoundArea : DeleteResult
  | ok : Option LayoutConfig → List Asiento → DeleteResult
deriving DecidableEq, Repr

/-- The area-ownership check of the delete route:
`SELECT ar.areaID, ar.lugarID FROM Area ar JOIN Lugar l ... JOIN Evento e ...
WHERE ar.areaID = $1 AND e.eventoID = $2` has at least one row. -/
def areaBelongsToEvent (st : DBState) (arID evID : Int) : Bool :=
  st.areas.any (fun ar => ar.areaID = arID &&
    st.lugares.any (fun l => l = ar.lugarID) &&
    st.eventos.any (fun e => e.lugarID = ar.lugarID && e.eventoID = evID))

/-- `DELETE /:eventoID/areas/:areaID`: validates the ids, checks the event
and the area's ownership, deletes the area (its seats cascade via
`ON DELETE CASCADE`), filters the croquis `tables` entries whose `areaid`
equals the deleted id, commits, and answers with post-commit re-reads. -/
def deleteAreaRoute (st : DBState) (evID arID : Int) : DBState × DeleteResult :=
  if evID ≤ 0 ∨ arID ≤ 0 then (st, .badRequest)
  else if !(st.eventos.any (fun e => e.eventoID = evID)) then
    (st, .notFoundEvent)
  else if !(areaBelongsToEvent st arID evID) then (st, .notFoundArea)
  else if !(st.areas.any (fun ar => ar.areaID = arID)) then (st, .notFoundArea)
  else
    let st1 := { st with
      areas := st.areas.filter (fun ar => !decide (ar.areaID = arID)),
      asientos := st.asientos.filter (fun a => !decide (a.areaID = arID)) }
    let st2 :=
      match (st1.croquis.filter (fun row => decide (row.eventoID = evID))).head? with
      | none => st1
      | some row0 =>
        match row0.configuracion.tables with
        | none => st1
        | some ts =>
          let c2 : LayoutConfig :=
            ⟨some (ts.filter (fun t => !decide (t.areaid = some arID)))⟩
          let upd := fun (row : CroquisRow) =>
            if row.eventoID = evID then { row with configuracion := c2 } else row
          { st1 with croquis := st1.croquis.map upd }
    (st2, .ok (croquisConfig st2 evID) (seatsQueryPut st2 evID))

/-- The `(temporaryAreaId, realAreaId)` pairs generated by the area loop, in
loop order: entry `i` detected as temporary pairs its original `areaid` with
the SERIAL id the `INSERT INTO Area` returns. -/
def tempPairs (next : Int) : List TableEntry → List (Option Int × Int)
  | [] => []
  | t :: rest =>
    if isTempTable t then (t.areaid, next) :: tempPairs (next + 1) rest
    else tempPairs next rest

/-- The cumulative effect on one seat descriptor of the seat rewrites
performed by the area loop. -/
def applyRemaps (prs : List (Option Int × Int)) (a : SeatInput) : SeatInput :=
  prs.foldl (fun a p => rewriteSeat p.1 p.2 a) a

/-- The cumulative effect of the area loop on the `tables` list: each
temporary entry gets `areaid` set to its real id and `id` set to
`area-<realId>`. -/
def remapTables (next : Int) : List TableEntry → List TableEntry
  | [] => []
  | t :: rest =>
    if isTempTable t then
      { t with areaid := some next, id := some ("area-" ++ toString next) } ::
        remapTables (next + 1) rest
    else t :: remapTables next rest

/-- `areaid`, when numeric, lies outside the half-open id range
`[lo, hi)` — the range of SERIAL ids a reconciliation run can allocate.
The spec's temporary-id heuristic presumes real ids stay below the
placeholder ceiling, which implies this. -/
def avoidsRange (lo hi : Int) (t : TableEntry) : Bool :=
  match t.areaid with
  | some n => decide (n < lo) || decide (hi ≤ n)
  | none => true

/-- A small concrete database: one venue, one event, one area, one seat. -/
def exState : DBState :=
  ⟨[1], [⟨1, 1⟩], [⟨1, "Zona A", 10, "GENERAL", 1⟩],
   [⟨5, "A1", none, none, "DISPONIBLE", 1⟩], [], 2, 6⟩

/-- A submitted seat descriptor whose id is the string `"5"` and which does
not carry the `isNew` marker. -/
def exSeatStr : SeatInput :=
  ⟨.str "5", false, "A1", none, none, "ocupado", some 1, some 1⟩

/-- `exState` after seat 5's state is updated to `OCUPADO`. -/
def exStateUpd : DBState :=
  { exState with asientos := [⟨5, "A1", none, none, "OCUPADO", 1⟩] }

/-- A submitted seat descriptor marked new, targeting area 1. -/
def exSeatNew : SeatInput :=
  ⟨.undef, true, "B1", some 1, some 2, "disponible", some 1, some 1⟩

/-- `exState` after `exSeatNew` is inserted. -/
def exStateNew : DBState :=
  { exState with
    asientos := exState.asientos ++ [⟨6, "B1", some 1, some 2, "DISPONIBLE", 1⟩],
    nextAsientoID := 7 }

/-- A seat update whose id (7) does not exist under the event's venue. -/
def exSeatStale : SeatInput :=
  ⟨.num 7, false, "C1", none, none, "ocupado", some 1, some 1⟩

/-- A new seat with no usable area reference. -/
def exSeatNoArea : SeatInput :=
  ⟨.undef, true, "D1", none, none, "disponible", none, none⟩

/-- A new seat whose area reference points at a non-existent area (the
`INSERT` then violates the foreign key and aborts the transaction). -/
def exSeatBadArea : SeatInput :=
  ⟨.undef, true, "E1", none, none, "disponible", some 99, some 99⟩

/-- A layout document with one temporary table entry. -/
def exConfTemp : LayoutConfig :=
  ⟨some [⟨some "new-table-1", some 1111111111, some "Mesa 1", some 8,
          some "GENERAL"⟩]⟩

/-- A real-seat state update against `exState`. -/
def exSeatNum : SeatInput :=
  ⟨.num 5, false, "A1", none, none, "ocupado", some 1, some 1⟩

/-- The `tables` list of `exConfTemp`. -/
def exTsTemp : List TableEntry :=
  [⟨some "new-table-1", some 1111111111, some "Mesa 1", some 8, some "GENERAL"⟩]

/-- Two new seats referring to the temporary area `1111111111`. -/
def exAsTemp : List SeatInput :=
  [⟨.undef, true, "B1", some 1, some 2, "disponible", some 1111111111,
    some 1111111111⟩,
   ⟨.undef, true, "B2", some 1, some 3, "disponible", some 1111111111,
    some 1111111111⟩]

/-- State after the area loop runs on `exTsTemp`: area 2 created. -/
def exPTst : DBState :=
  ⟨[1], [⟨1, 1⟩],
   [⟨1, "Zona A", 10, "GENERAL", 1⟩, ⟨2, "Área Mesa 1", 8, "GENERAL", 1⟩],
   [⟨5, "A1", none, none, "DISPONIBLE", 1⟩], [], 3, 6⟩

/-- Rewritten tables after the area loop on `exTsTemp`. -/
def exPTts : List TableEntry :=
  [⟨some "area-2", some 2, some "Mesa 1", some 8, some "GENERAL"⟩]

/-- Rewritten seat list after the area loop on `exTsTemp`/`exAsTemp`. -/
def exPTas : List SeatInput :=
  [⟨.undef, true, "B1", some 1, some 2, "disponible", some 2, some 2⟩,
   ⟨.undef, true, "B2", some 1, some 3, "disponible", some 2, some 2⟩]

/-- `exState` after reconciling `exConfTemp` with an empty seat list:
area 2 is created and the croquis stores the rewritten document. -/
def exStateCommitted : DBState :=
  ⟨[1], [⟨1, 1⟩],
   [⟨1, "Zona A", 10, "GENERAL", 1⟩, ⟨2, "Área Mesa 1", 8, "GENERAL", 1⟩],
   [⟨5, "A1", none, none, "DISPONIBLE", 1⟩],
   [⟨1, ⟨some [⟨some "area-2", some 2, some "Mesa 1", some 8, some "GENERAL"⟩]⟩⟩],
   3, 6⟩

theorem applyRemaps_nil (a : SeatInput) : applyRemaps [] a = a := rfl

theorem applyRemaps_cons (p : Option Int × Int) (prs : List (Option Int × Int))
    (a : SeatInput) :
    applyRemaps (p :: prs) a = applyRemaps prs (rewriteSeat p.1 p.2 a) := rfl

theorem map_applyRemaps_nil (as : List SeatInput) :
    as.map (applyRemaps []) = as := by
  have h : ∀ a ∈ as, applyRemaps [] a = id a := fun a _ => rfl
  rw [List.map_congr_left h, List.map_id]

theorem map_applyRemaps_cons (p : Option Int × Int)
    (prs : List (Option Int × Int)) (as : List SeatInput) :
    as.map (applyRemaps (p :: prs)) =
    (as.map (rewriteSeat p.1 p.2)).map (applyRemaps prs) := by
  rw [List.map_map]
  exact List.map_congr_left (fun a _ => applyRemaps_cons p prs a)

/-- Structure of a successful run of the temporary-area loop: only `areas`
and `nextAreaID` change in the database (one new row per temporary entry);
the returned tables are `remapTables` of the input and the returned seat
list is the pointwise `applyRemaps` of the input. -/
theorem processTables_ok_shape (lugar : Int) (ts : List TableEntry) :
    ∀ (st : DBState) (as : List SeatInput) (st2 : DBState)
      (ts2 : List TableEntry) (as2 : List SeatInput),
    processTables lugar st ts as = .ok (st2, ts2, as2) →
    st2.lugares = st.lugares ∧ st2.eventos = st.eventos ∧
    st2.asientos = st.asientos ∧ st2.croquis = st.croquis ∧
    st2.nextAsientoID = st.nextAsientoID ∧
    ts2 = remapTables st.nextAreaID ts ∧
    as2 = as.map (applyRemaps (tempPairs st.nextAreaID ts)) ∧
    st2.areas.length = st.areas.length + ts.countP isTempTable ∧
    st2.nextAreaID = st.nextAreaID + (ts.countP isTempTable : Int) ∧
    (∀ x ∈ st.areas, x ∈ st2.areas) := by
  induction ts with
  | nil =>
    intro st as st2 ts2 as2 h
    simp only [processTables, Except.ok.injEq, Prod.mk.injEq] at h
    obtain ⟨h1, h2, h3⟩ := h
    subst h1; subst h2; subst h3
    simp [remapTables, tempPairs, map_applyRemaps_nil, List.countP_nil]
  | cons t rest ih =>
    intro st as st2 ts2 as2 h
    simp only [processTables] at h
    by_cases ht : isTempTable t
    · rw [if_pos ht] at h
      rcases h1 : insertArea lugar st t with e | p
      · rw [h1] at h; exact absurd h (by simp)
      · obtain ⟨st1, r⟩ := p
        rw [h1] at h
        dsimp only at h
        have hst1 : st1 = { st with
            areas := st.areas ++
              [⟨st.nextAreaID, "Área " ++ tableDisplayName t,
                jsOrInt t.capacidad 50, jsOrStr t.tipo "GENERAL", lugar⟩],
            nextAreaID := st.nextAreaID + 1 } ∧ r = st.nextAreaID := by
          simp only [insertArea] at h1
          split at h1
          · simp only [Except.ok.injEq, Prod.mk.injEq] at h1
            exact ⟨h1.1.symm, h1.2.symm⟩
          · exact absurd h1 (by simp)
        obtain ⟨hst1eq, hr⟩ := hst1
        rcases h2 : processTables lugar st1 rest
            (List.map (rewriteSeat t.areaid r) as) with e | q
        · rw [h2] at h; exact absurd h (by simp)
        · obtain ⟨st2i, rest2, as2i⟩ := q
          rw [h2] at h
          dsimp only at h
          simp only [Except.ok.injEq, Prod.mk.injEq] at h
          obtain ⟨hA, hB, hC⟩ := h
          obtain ⟨ihl, ihe, iha, ihc, ihn, ihts, ihas, ihlen, ihnext, ihmono⟩ :=
            ih st1 (List.map (rewriteSeat t.areaid r) as) st2i rest2 as2i h2
          subst hA
          subst hr
          refine ⟨?_, ?_, ?_, ?_, ?_, ?_, ?_, ?_, ?_, ?_⟩
          · rw [ihl, hst1eq]
          · rw [ihe, hst1eq]
          · rw [iha, hst1eq]
          · rw [ihc, hst1eq]
          · rw [ihn, hst1eq]
          · rw [← hB, remapTables, if_pos ht]
            rw [ihts, hst1eq]
          · rw [← hC, ihas, hst1eq]
            show List.map _ _ =
              List.map (applyRemaps (tempPairs st.nextAreaID (t :: rest))) as
            rw [tempPairs, if_pos ht, map_applyRemaps_cons]
          · rw [ihlen, hst1eq]
            simp only [List.countP_cons, ht, if_true, List.length_append,
              List.length_cons, List.length_nil]
            omega
          · rw [ihnext, hst1eq]
            simp only [List.countP_cons, ht]
            push_cast
            show st.nextAreaID + 1 + (List.countP isTempTable rest : Int) = _
            ring
          · intro x hx
            exact ihmono x (by simp [hst1eq, hx])
    · rw [if_neg ht] at h
      rcases h2 : processTables lugar st rest as with e | q
      · rw [h2] at h; exact absurd h (by simp)
      · obtain ⟨st2i, rest2, as2i⟩ := q
        rw [h2] at h
        dsimp only at h
        simp only [Except.ok.injEq, Prod.mk.injEq] at h
        obtain ⟨hA, hB, hC⟩ := h
        obtain ⟨ihl, ihe, iha, ihc, ihn, ihts, ihas, ihlen, ihnext, ihmono⟩ :=
          ih st as st2i rest2 as2i h2
        subst hA
        refine ⟨ihl, ihe, iha, ihc, ihn, ?_, ?_, ?_, ?_, ihmono⟩
        · rw [← hB, remapTables, if_neg ht, ihts]
        · rw [← hC, ihas]
          show _ = List.map (applyRemaps (tempPairs st.nextAreaID (t :: rest))) as
          rw [tempPairs, if_neg ht]
        · rw [ihlen]
          simp [List.countP_cons, ht]
        · rw [ihnext]
          simp [List.countP_cons, ht]

/-- A successful seat-loop iteration either leaves the state unchanged
(a skip), appends one freshly numbered seat row with an uppercased enum
state, or uppercase-updates the state of the rows matching one seat id. -/
theorem processAsiento_ok_cases (lugar : Int) (st : DBState) (a : SeatInput)
    (st1 : DBState) (h : processAsiento lugar st a = .ok st1) :
    st1 = st ∨
    (∃ n, jsToUpper a.estado ∈ estadoAsientoValues ∧
      st1 = { st with
        asientos := st.asientos ++
          [⟨st.nextAsientoID, a.codigo, jsOrNull a.fila, jsOrNull a.columna,
            jsToUpper a.estado, n⟩],
        nextAsientoID := st.nextAsientoID + 1 }) ∨
    (∃ n, jsToUpper a.estado ∈ estadoAsientoValues ∧
      st1 = { st with
        asientos := st.asientos.map
          (fun row => if row.asientoID = n
                      then { row with estado := jsToUpper a.estado }
                      else row) }) := by
  simp only [processAsiento] at h
  split at h
  · -- new-seat branch
    rcases ha : a.areaID with _ | n
    · rw [ha] at h
      dsimp only at h
      exact Or.inl (by injection h with h; exact h.symm)
    · rw [ha] at h
      dsimp only at h
      split at h
      · exact Or.inl (by injection h with h; exact h.symm)
      · split at h
        · split at h
          · refine Or.inr (Or.inl ⟨n, by assumption, ?_⟩)
            injection h with h
            exact h.symm
          · exact absurd h (by simp)
        · exact absurd h (by simp)
  · -- existing-seat branch
    rcases hc : seatIdAsInt a.asientoID with _ | n
    · rw [hc] at h
      exact absurd h (by simp)
    · rw [hc] at h
      dsimp only at h
      split at h
      · split at h
        · refine Or.inr (Or.inr ⟨n, by assumption, ?_⟩)
          injection h with h
          exact h.symm
        · exact absurd h (by simp)
      · exact Or.inl (by injection h with h; exact h.symm)

/-- Every value of the `estado_asiento` enum is already uppercase. -/
theorem estadoAsientoValues_toUpper (s : String)
    (h : s ∈ estadoAsientoValues) : jsToUpper s = s := by
  simp only [estadoAsientoValues, List.mem_cons, List.not_mem_nil, or_false]
    at h
  rcases h with h | h | h | h <;> subst h <;> decide

/-- Frame of one successful seat-loop iteration: only `asientos` and
`nextAsientoID` can change, and every seat row afterwards is either an
original row or carries an uppercase enum state. -/
theorem processAsiento_frame (lugar : Int) (st : DBState) (a : SeatInput)
    (st1 : DBState) (h : processAsiento lugar st a = .ok st1) :
    st1.lugares = st.lugares ∧ st1.eventos = st.eventos ∧
    st1.areas = st.areas ∧ st1.croquis = st.croquis ∧
    st1.nextAreaID = st.nextAreaID ∧
    (∀ row ∈ st1.asientos, row ∈ st.asientos ∨
      row.estado ∈ estadoAsientoValues) := by
  rcases processAsiento_ok_cases lugar st a st1 h with h1 | ⟨n, hm, h1⟩ | ⟨n, hm, h1⟩
  · subst h1; exact ⟨rfl, rfl, rfl, rfl, rfl, fun row hr => Or.inl hr⟩
  · subst h1
    refine ⟨rfl, rfl, rfl, rfl, rfl, fun row hr => ?_⟩
    rcases List.mem_append.1 hr with hr | hr
    · exact Or.inl hr
    · simp only [List.mem_singleton] at hr
      subst hr
      exact Or.inr hm
  · subst h1
    refine ⟨rfl, rfl, rfl, rfl, rfl, fun row hr => ?_⟩
    rcases List.mem_map.1 hr with ⟨row0, hr0, hrow⟩
    subst hrow
    by_cases he : row0.asientoID = n
    · rw [if_pos he]
      exact Or.inr hm
    · rw [if_neg he]
      exact Or.inl hr0

/-- Frame of a successful run of the whole seat loop. -/
theorem seatLoop_frame (lugar : Int) (as : List SeatInput) :
    ∀ (st st1 : DBState), seatLoop lugar st as = .ok st1 →
    st1.lugares = st.lugares ∧ st1.eventos = st.eventos ∧
    st1.areas = st.areas ∧ st1.croquis = st.croquis ∧
    st1.nextAreaID = st.nextAreaID ∧
    (∀ row ∈ st1.asientos, row ∈ st.asientos ∨
      row.estado ∈ estadoAsientoValues) := by
  induction as with
  | nil =>
    intro st st1 h
    simp only [seatLoop, Except.ok.injEq] at h
    subst h
    exact ⟨rfl, rfl, rfl, rfl, rfl, fun row hr => Or.inl hr⟩
  | cons a rest ih =>
    intro st st1 h
    simp only [seatLoop] at h
    rcases h0 : processAsiento lugar st a with e | stm
    · rw [h0] at h; exact absurd h (by simp)
    · rw [h0] at h
      dsimp only at h
      obtain ⟨f1, f2, f3, f4, f5, f6⟩ := processAsiento_frame lugar st a stm h0
      obtain ⟨g1, g2, g3, g4, g5, g6⟩ := ih stm st1 h
      refine ⟨g1.trans f1, g2.trans f2, g3.trans f3, g4.trans f4,
        g5.trans f5, fun row hr => ?_⟩
      rcases g6 row hr with hr1 | hr1
      · exact f6 row hr1
      · exact Or.inr hr1

/-- The croquis upsert changes only the `croquis` table. -/
theorem upsertCroquis_frame (st : DBState) (evID : Int)
    (conf : Option LayoutConfig) :
    (upsertCroquis st evID conf).lugares = st.lugares ∧
    (upsertCroquis st evID conf).eventos = st.eventos ∧
    (upsertCroquis st evID conf).areas = st.areas ∧
    (upsertCroquis st evID conf).asientos = st.asientos ∧
    (upsertCroquis st evID conf).nextAreaID = st.nextAreaID ∧
    (upsertCroquis st evID conf).nextAsientoID = st.nextAsientoID := by
  rcases conf with _ | c
  · exact ⟨rfl, rfl, rfl, rfl, rfl, rfl⟩
  · simp only [upsertCroquis]
    split <;> exact ⟨rfl, rfl, rfl, rfl, rfl, rfl⟩

/-- A successful reconciliation never touches the `Lugar` or `Evento`
tables. -/
theorem reconcileTx_ok_frame (lugar evID : Int) (st : DBState)
    (conf : Option LayoutConfig) (as : List SeatInput) (st1 : DBState)
    (h : reconcileTx lugar evID st conf as = .ok st1) :
    st1.lugares = st.lugares ∧ st1.eventos = st.eventos := by
  simp only [reconcileTx] at h
  rcases h0 : areaPhase lugar st conf as with e | q
  · rw [h0] at h; exact absurd h (by simp)
  · obtain ⟨sta, confa, asa⟩ := q
    rw [h0] at h
    dsimp only at h
    have hframe : sta.lugares = st.lugares ∧ sta.eventos = st.eventos := by
      simp only [areaPhase] at h0
      rcases conf with _ | c
      · simp only [Except.ok.injEq, Prod.mk.injEq] at h0
        rw [← h0.1]
        exact ⟨rfl, rfl⟩
      · dsimp only at h0
        rcases hts : c.tables with _ | ts
        · rw [hts] at h0
          dsimp only at h0
          simp only [Except.ok.injEq, Prod.mk.injEq] at h0
          rw [← h0.1]
          exact ⟨rfl, rfl⟩
        · rw [hts] at h0
          dsimp only at h0
          rcases h3 : processTables lugar st ts as with e | q3
          · rw [h3] at h0; exact absurd h0 (by simp)
          · obtain ⟨st3, ts3, as3⟩ := q3
            rw [h3] at h0
            dsimp only at h0
            simp only [Except.ok.injEq, Prod.mk.injEq] at h0
            obtain ⟨e1, e2, e3, e4, e5, _⟩ :=
              processTables_ok_shape lugar ts st as st3 ts3 as3 h3
            rw [← h0.1]
            exact ⟨e1, e2⟩
    obtain ⟨u1, u2, _, _, _, _⟩ := upsertCroquis_frame sta evID confa
    obtain ⟨s1, s2, _, _, _, _⟩ :=
      seatLoop_frame lugar asa (upsertCroquis sta evID confa) st1 h
    exact ⟨s1.trans (u1.trans hframe.1), s2.trans (u2.trans hframe.2)⟩

/-- A seat-loop iteration on a seat that is not detected as new never
creates or deletes seat rows: the multiset of seat ids is unchanged. -/
theorem processAsiento_nonNew_ids (lugar : Int) (st : DBState) (a : SeatInput)
    (st1 : DBState) (hnew : isNewSeat a = false)
    (h : processAsiento lugar st a = .ok st1) :
    st1.asientos.map (fun row => row.asientoID) =
    st.asientos.map (fun row => row.asientoID) := by
  simp only [processAsiento, hnew, Bool.false_eq_true, if_false] at h
  rcases hc : seatIdAsInt a.asientoID with _ | n
  · rw [hc] at h; exact absurd h (by simp)
  · rw [hc] at h
    dsimp only at h
    split at h
    · split at h
      · injection h with h
        subst h
        rw [List.map_map]
        apply List.map_congr_left
        intro row _
        by_cases he : row.asientoID = n
        · simp [Function.comp, he]
        · simp [Function.comp, he]
      · exact absurd h (by simp)
    · injection h with h
      subst h
      rfl

/-- Claim C4, counterexample: a submitted seat whose identifier is the
string `"5"` (and no `isNew` marker) is NOT treated as a new seat — the
reconciler takes the update path, changing the existing row's state and
creating no row — contradicting the claim that a string identifier marks
the seat as not yet existing. -/
theorem claim4_counterexample :
    isNewSeat exSeatStr = false ∧
    reconcileTx 1 1 exState none [exSeatStr] = .ok exStateUpd ∧
    exStateUpd.asientos.length = exState.asientos.length := by
  refine ⟨by decide, by rfl, by decide⟩

/-- Claim C4 (amended): the reconciler treats a seat as not yet existing
exactly when its identifier is absent, a number above the 1000000000
ceiling, or the explicit `isNew` marker is set; a string identifier alone
leaves `isNewSeat` equal to the `isNew` flag, and the seat is processed in
the update path (never appending a row), while a seat detected as new only
ever appends a row (never updating one). -/
theorem claim4_string_id_not_new :
    (∀ (a : SeatInput) (s : String), a.asientoID = SeatId.str s →
      isNewSeat a = a.isNew) ∧
    (∀ (lugar : Int) (st : DBState) (a : SeatInput) (st1 : DBState),
      isNewSeat a = false → processAsiento lugar st a = .ok st1 →
      st1.asientos.map (fun row => row.asientoID) =
        st.asientos.map (fun row => row.asientoID)) ∧
    (∀ (lugar : Int) (st : DBState) (a : SeatInput) (st1 : DBState),
      isNewSeat a = true → processAsiento lugar st a = .ok st1 →
      st1.asientos = st.asientos ∨
        ∃ row, st1.asientos = st.asientos ++ [row]) := by
  refine ⟨?_, ?_, ?_⟩
  · intro a s h
    simp [isNewSeat, h]
  · exact processAsiento_nonNew_ids
  · intro lugar st a st1 hnew h
    simp only [processAsiento, hnew, if_true] at h
    rcases ha : a.areaID with _ | n
    · rw [ha] at h
      dsimp only at h
      injection h with h
      exact Or.inl (by rw [← h])
    · rw [ha] at h
      dsimp only at h
      split at h
      · injection h with h
        exact Or.inl (by rw [← h])
      · split at h
        · split at h
          · injection h with h
            exact Or.inr ⟨_, by rw [← h]⟩
          · exact absurd h (by simp)
        · exact absurd h (by simp)

/-- Claim C4, witness for the amended statement at concrete inputs. -/
theorem claim4_witness :
    isNewSeat exSeatStr = exSeatStr.isNew ∧
    exStateUpd.asientos.map (fun row => row.asientoID) =
      exState.asientos.map (fun row => row.asientoID) ∧
    (exStateNew.asientos = exState.asientos ∨
      ∃ row, exStateNew.asientos = exState.asientos ++ [row]) :=
  ⟨claim4_string_id_not_new.1 exSeatStr "5" rfl,
   claim4_string_id_not_new.2.1 1 exState exSeatStr exStateUpd
     (by decide) (by rfl),
   claim4_string_id_not_new.2.2 1 exState exSeatNew exStateNew
     (by decide) (by rfl)⟩

/-- Claim C5: a seat update whose (real, numeric) id does not resolve to an
area of the event's venue is skipped — the state is untouched and the loop
continues as if the descriptor were absent; likewise a new seat without a
positive area reference is skipped rather than aborting the transaction. -/
theorem claim5_stale_seat_skipped (lugar : Int) (st : DBState) (a : SeatInput) :
    (∀ n : Int, isNewSeat a = false → a.asientoID = SeatId.num n →
      seatBelongs st n lugar = false → processAsiento lugar st a = .ok st) ∧
    (isNewSeat a = true →
      (a.areaID = none ∨ ∃ m, a.areaID = some m ∧ m ≤ 0) →
      processAsiento lugar st a = .ok st) ∧
    (processAsiento lugar st a = .ok st → ∀ rest,
      seatLoop lugar st (a :: rest) = seatLoop lugar st rest) := by
  refine ⟨?_, ?_, ?_⟩
  · intro n hnew hid hbel
    simp [processAsiento, hnew, hid, seatIdAsInt, hbel]
  · intro hnew hcase
    rcases hcase with hnone | ⟨m, hm, hle⟩
    · simp [processAsiento, hnew, hnone]
    · simp [processAsiento, hnew, hm, hle]
  · intro h rest
    simp [seatLoop, h]

/-- Claim C5, witness: concrete skipped stale update and skipped area-less
new seat. -/
theorem claim5_witness :
    processAsiento 1 exState exSeatStale = .ok exState ∧
    processAsiento 1 exState exSeatNoArea = .ok exState ∧
    seatLoop 1 exState [exSeatStale] = seatLoop 1 exState [] :=
  ⟨(claim5_stale_seat_skipped 1 exState exSeatStale).1 7 (by decide) rfl
     (by decide),
   (claim5_stale_seat_skipped 1 exState exSeatNoArea).2.1 (by decide)
     (Or.inl rfl),
   (claim5_stale_seat_skipped 1 exState exSeatStale).2.2
     ((claim5_stale_seat_skipped 1 exState exSeatStale).1 7 (by decide) rfl
       (by decide)) []⟩

/-- Claim C2: when the layout route (without any post-commit fault) answers
with the internal error, the returned state is exactly the state before the
call — the transaction was rolled back and no area/seat/croquis write is
observable; conversely any transaction error surfaces as that single
internal error with the pre-call state. -/
theorem claim2_rollback_on_error :
    (∀ (st : DBState) (evID : Int) (conf : Option LayoutConfig)
       (asientos : Option (List SeatInput)) (st1 : DBState) (res : PutResult),
      putLayout st evID conf asientos false = (st1, res) →
      res = PutResult.serverError → st1 = st) ∧
    (∀ (st : DBState) (evID : Int) (conf : Option LayoutConfig)
       (as : List SeatInput) (err : TxErr) (e : Evento) (rest : List Evento),
      st.eventos.filter (fun x => decide (x.eventoID = evID)) = e :: rest →
      reconcileTx e.lugarID evID st conf as = .error err →
      putLayout st evID conf (some as) false = (st, PutResult.serverError)) := by
  constructor
  · intro st evID conf asientos st1 res h hres
    subst hres
    simp only [putLayout] at h
    rcases hf : st.eventos.filter (fun x => decide (x.eventoID = evID))
      with _ | ⟨e, es⟩
    · rw [hf] at h
      dsimp only at h
      simp only [Prod.mk.injEq] at h
      exact absurd h.2 (by simp)
    · rw [hf] at h
      dsimp only at h
      rcases asientos with _ | as
      · dsimp only at h
        simp only [Prod.mk.injEq] at h
        exact absurd h.2 (by simp)
      · dsimp only at h
        rcases hr : reconcileTx e.lugarID evID st conf as with err | stm
        · rw [hr] at h
          dsimp only at h
          simp only [Prod.mk.injEq] at h
          exact h.1.symm
        · rw [hr] at h
          dsimp only at h
          simp only [Bool.false_eq_true, if_false, Prod.mk.injEq] at h
          exact absurd h.2 (by simp)
  · intro st evID conf as err e rest hf hr
    simp only [putLayout]
    rw [hf]
    dsimp only
    rw [hr]

/-- Claim C2, witness: a new seat pointing at a missing area makes the
`INSERT` violate the foreign key; the route rolls back and answers the
internal error with the state unchanged. -/
theorem claim2_witness :
    putLayout exState 1 none (some [exSeatBadArea]) false =
      (exState, PutResult.serverError) :=
  claim2_rollback_on_error.2 exState 1 none [exSeatBadArea]
    TxErr.fkViolation ⟨1, 1⟩ [] (by decide) (by rfl)

/-- Claim C9: a 500 from the layout route does not imply nothing changed —
the response re-reads run after `COMMIT`, so when they fail the route
answers the internal error while the whole reconciliation (here: a created
area and the stored croquis) remains durably committed. -/
theorem claim9_post_commit_error_durable :
    putLayout exState 1 (some exConfTemp) (some []) true =
      (exStateCommitted, PutResult.serverError) ∧
    exStateCommitted ≠ exState := by
  refine ⟨by decide, by decide⟩

/-- Claim C10: after a successful reconciliation, every seat row is either
an untouched pre-existing row or carries a state that is one of the
uppercase `estado_asiento` enumeration values (and is fixed by
uppercasing) — every row the reconciler writes has its submitted state
uppercased and enum-checked before being persisted. -/
theorem claim10_estado_uppercase (lugar evID : Int) (st : DBState)
    (conf : Option LayoutConfig) (as : List SeatInput) (st1 : DBState)
    (h : reconcileTx lugar evID st conf as = .ok st1) :
    ∀ row ∈ st1.asientos, row ∈ st.asientos ∨
      (row.estado ∈ estadoAsientoValues ∧ jsToUpper row.estado = row.estado) := by
  intro row hrow
  simp only [reconcileTx] at h
  rcases h0 : areaPhase lugar st conf as with e | q
  · rw [h0] at h; exact absurd h (by simp)
  · obtain ⟨sta, confa, asa⟩ := q
    rw [h0] at h
    dsimp only at h
    have hasi : sta.asientos = st.asientos := by
      simp only [areaPhase] at h0
      rcases conf with _ | c
      · simp only [Except.ok.injEq, Prod.mk.injEq] at h0
        rw [← h0.1]
      · dsimp only at h0
        rcases hts : c.tables with _ | ts
        · rw [hts] at h0
          dsimp only at h0
          simp only [Except.ok.injEq, Prod.mk.injEq] at h0
          rw [← h0.1]
        · rw [hts] at h0
          dsimp only at h0
          rcases h3 : processTables lugar st ts as with e | q3
          · rw [h3] at h0; exact absurd h0 (by simp)
          · obtain ⟨st3, ts3, as3⟩ := q3
            rw [h3] at h0
            dsimp only at h0
            simp only [Except.ok.injEq, Prod.mk.injEq] at h0
            obtain ⟨_, _, e3, _⟩ :=
              processTables_ok_shape lugar ts st as st3 ts3 as3 h3
            rw [← h0.1]
            exact e3
    obtain ⟨_, _, _, _, _, hrows⟩ :=
      seatLoop_frame lugar asa (upsertCroquis sta evID confa) st1 h
    rcases hrows row hrow with hmem | hup
    · left
      have hu : (upsertCroquis sta evID confa).asientos = sta.asientos :=
        (upsertCroquis_frame sta evID confa).2.2.2.1
      rw [hu, hasi] at hmem
      exact hmem
    · exact Or.inr ⟨hup, estadoAsientoValues_toUpper row.estado hup⟩

/-- Claim C10, witness: the updated row of the concrete update run is fixed
by uppercasing and lies in the enumeration. -/
theorem claim10_witness :
    (⟨5, "A1", none, none, "OCUPADO", 1⟩ : Asiento) ∈ exState.asientos ∨
    (("OCUPADO" : String) ∈ estadoAsientoValues ∧
      jsToUpper "OCUPADO" = "OCUPADO") :=
  claim10_estado_uppercase 1 1 exState none [exSeatStr] exStateUpd
    (by rfl) ⟨5, "A1", none, none, "OCUPADO", 1⟩ (by decide)

/-- When no table entry is detected as temporary, the area loop is a no-op. -/
theorem processTables_noTemp (lugar : Int) (ts : List TableEntry) :
    ∀ (st : DBState) (as : List SeatInput),
    (∀ t ∈ ts, isTempTable t = false) →
    processTables lugar st ts as = .ok (st, ts, as) := by
  induction ts with
  | nil => intro st as _; rfl
  | cons t rest ih =>
    intro st as h
    have ht : isTempTable t = false := h t (List.mem_cons_self t rest)
    have hrest : ∀ x ∈ rest, isTempTable x = false :=
      fun x hx => h x (List.mem_cons_of_mem t hx)
    simp only [processTables, ht, Bool.false_eq_true, if_false,
      ih st as hrest]

/-- A seat with a real numeric id (at or below the ceiling) and no `isNew`
marker is not detected as new. -/
theorem isNewSeat_real (a : SeatInput) (n : Int) (hid : a.asientoID = .num n)
    (hle : n ≤ 1000000000) (hnin : a.isNew = false) : isNewSeat a = false := by
  simp only [isNewSeat, hid, hnin, Bool.or_false, Bool.false_or,
    decide_eq_false_iff_not]
  omega

/-- The seat loop over descriptors none of which is detected as new
preserves the list of seat ids (updates in place, never inserts). -/
theorem seatLoop_nonNew_ids (lugar : Int) (as : List SeatInput) :
    ∀ (st st1 : DBState), (∀ a ∈ as, isNewSeat a = false) →
    seatLoop lugar st as = .ok st1 →
    st1.asientos.map (fun row => row.asientoID) =
    st.asientos.map (fun row => row.asientoID) := by
  induction as with
  | nil =>
    intro st st1 _ h
    simp only [seatLoop, Except.ok.injEq] at h
    subst h; rfl
  | cons a rest ih =>
    intro st st1 hall h
    simp only [seatLoop] at h
    rcases h0 : processAsiento lugar st a with e | stm
    · rw [h0] at h; exact absurd h (by simp)
    · rw [h0] at h
      dsimp only at h
      have h1 := processAsiento_nonNew_ids lugar st a stm
        (hall a (List.mem_cons_self a rest)) h0
      have h2 := ih stm st1 (fun x hx => hall x (List.mem_cons_of_mem a hx)) h
      exact h2.trans h1

/-- When the submitted document has no temporary entries, the area phase
leaves the state and the seat list untouched. -/
theorem areaPhase_noTemp (lugar : Int) (st : DBState)
    (conf : Option LayoutConfig) (as : List SeatInput)
    (hconf : ∀ c, conf = some c → ∀ ts, c.tables = some ts →
      ∀ t ∈ ts, isTempTable t = false) :
    ∃ confa, areaPhase lugar st conf as = .ok (st, confa, as) := by
  rcases conf with _ | c
  · exact ⟨none, rfl⟩
  · rcases hts : c.tables with _ | ts
    · refine ⟨some c, ?_⟩
      simp only [areaPhase, hts]
    · refine ⟨some ⟨some ts⟩, ?_⟩
      simp only [areaPhase, hts,
        processTables_noTemp lugar ts st as (hconf c rfl ts hts)]

/-- Claim C8: a reconcile call whose document has no temporary entries and
whose seat list only updates real seats (numeric ids at or below the
ceiling, no `isNew` markers) creates no Area row and no Seat row: the area
table is untouched and the seat-id list is unchanged, whatever the route
answers. -/
theorem claim8_no_creation (st : DBState) (evID : Int)
    (conf : Option LayoutConfig) (as : List SeatInput)
    (hconf : ∀ c, conf = some c → ∀ ts, c.tables = some ts →
      ∀ t ∈ ts, isTempTable t = false)
    (hseats : ∀ a ∈ as, ∃ n, a.asientoID = SeatId.num n ∧
      n ≤ 1000000000 ∧ a.isNew = false) :
    (putLayout st evID conf (some as) false).1.areas = st.areas ∧
    (putLayout st evID conf (some as) false).1.asientos.map
      (fun row => row.asientoID) =
      st.asientos.map (fun row => row.asientoID) := by
  have hnew : ∀ a ∈ as, isNewSeat a = false := by
    intro a ha
    obtain ⟨n, hid, hle, hnin⟩ := hseats a ha
    exact isNewSeat_real a n hid hle hnin
  simp only [putLayout]
  rcases hf : st.eventos.filter (fun x => decide (x.eventoID = evID))
    with _ | ⟨e, es⟩
  · rw [hf]
    exact ⟨rfl, rfl⟩
  · rw [hf]
    dsimp only
    rcases hr : reconcileTx e.lugarID evID st conf as with err | stm
    · exact ⟨rfl, rfl⟩
    · dsimp only
      simp only [reconcileTx] at hr
      obtain ⟨confa, hap⟩ := areaPhase_noTemp e.lugarID st conf as hconf
      rw [hap] at hr
      dsimp only at hr
      obtain ⟨_, _, g3, _, _, _⟩ :=
        seatLoop_frame e.lugarID as (upsertCroquis st evID confa) stm hr
      have hids := seatLoop_nonNew_ids e.lugarID as
        (upsertCroquis st evID confa) stm hnew hr
      obtain ⟨_, _, u3, u4, _, _⟩ := upsertCroquis_frame st evID confa
      simp only [Bool.false_eq_true, if_false]
      exact ⟨g3.trans u3, by rw [hids, u4]⟩

/-- Claim C8, witness: a pure state update neither creates areas nor
seats. -/
theorem claim8_witness :
    (putLayout exState 1 none (some [exSeatNum]) false).1.areas =
      exState.areas ∧
    (putLayout exState 1 none (some [exSeatNum]) false).1.asientos.map
      (fun row => row.asientoID) =
      exState.asientos.map (fun row => row.asientoID) :=
  claim8_no_creation exState 1 none [exSeatNum]
    (fun c hc => by cases hc)
    (by
      intro a ha
      simp only [List.mem_singleton] at ha
      subst ha
      exact ⟨5, rfl, by decide, rfl⟩)

/-- Claim C3: every table entry detected as temporary yields an Area row
whose venue reference is the resolved venue and whose name, capacity and
type come from the entry (name `Área <nombre||id>`, capacity defaulting to
50, type defaulting to GENERAL), and the returned entry carries
`areaid = realId` and `id = "area-<realId>"`. -/
theorem claim3_created_area_fields (lugar : Int) (ts : List TableEntry) :
    ∀ (st : DBState) (as : List SeatInput) (st2 : DBState)
      (ts2 : List TableEntry) (as2 : List SeatInput),
    processTables lugar st ts as = .ok (st2, ts2, as2) →
    ∀ (i : Nat) (hi : i < ts.length) (hi2 : i < ts2.length),
    isTempTable (ts.get ⟨i, hi⟩) = true →
    ∃ r, Area.mk r ("Área " ++ tableDisplayName (ts.get ⟨i, hi⟩))
          (jsOrInt (ts.get ⟨i, hi⟩).capacidad 50)
          (jsOrStr (ts.get ⟨i, hi⟩).tipo "GENERAL") lugar ∈ st2.areas ∧
      (ts2.get ⟨i, hi2⟩).areaid = some r ∧
      (ts2.get ⟨i, hi2⟩).id = some ("area-" ++ toString r) := by
  induction ts with
  | nil =>
    intro st as st2 ts2 as2 h i hi
    exact absurd hi (by simp)
  | cons t rest ih =>
    intro st as st2 ts2 as2 h i hi hi2 htemp
    simp only [processTables] at h
    by_cases ht : isTempTable t
    · rw [if_pos ht] at h
      rcases h1 : insertArea lugar st t with e | p
      · rw [h1] at h; exact absurd h (by simp)
      · obtain ⟨st1, r0⟩ := p
        rw [h1] at h
        dsimp only at h
        have hst1 : st1 = { st with
            areas := st.areas ++
              [⟨st.nextAreaID, "Área " ++ tableDisplayName t,
                jsOrInt t.capacidad 50, jsOrStr t.tipo "GENERAL", lugar⟩],
            nextAreaID := st.nextAreaID + 1 } ∧ r0 = st.nextAreaID := by
          simp only [insertArea] at h1
          split at h1
          · simp only [Except.ok.injEq, Prod.mk.injEq] at h1
            exact ⟨h1.1.symm, h1.2.symm⟩
          · exact absurd h1 (by simp)
        obtain ⟨hst1eq, hr0⟩ := hst1
        rcases h2 : processTables lugar st1 rest
            (List.map (rewriteSeat t.areaid r0) as) with e | q
        · rw [h2] at h; exact absurd h (by simp)
        · obtain ⟨st2i, rest2, as2i⟩ := q
          rw [h2] at h
          dsimp only at h
          simp only [Except.ok.injEq, Prod.mk.injEq] at h
          obtain ⟨hA, hB, hC⟩ := h
          subst hA
          subst hB
          subst hr0
          have hmono : ∀ x ∈ st1.areas, x ∈ st2i.areas :=
            (processTables_ok_shape lugar rest st1
              (List.map (rewriteSeat t.areaid st.nextAreaID) as)
              st2i rest2 as2i h2).2.2.2.2.2.2.2.2.2
          rcases i with _ | j
          · refine ⟨st.nextAreaID, ?_, ?_, ?_⟩
            · apply hmono
              rw [hst1eq]
              exact List.mem_append_right _ (List.mem_singleton.2 rfl)
            · rfl
            · rfl
          · have hj : j < rest.length := Nat.lt_of_succ_lt_succ hi
            have hj2 : j < rest2.length := Nat.lt_of_succ_lt_succ hi2
            have htj : isTempTable (rest.get ⟨j, hj⟩) = true := htemp
            obtain ⟨r, hr1, hr2, hr3⟩ :=
              ih st1 (List.map (rewriteSeat t.areaid st.nextAreaID) as)
                st2i rest2 as2i h2 j hj hj2 htj
            exact ⟨r, hr1, hr2, hr3⟩
    · rw [if_neg ht] at h
      rcases h2 : processTables lugar st rest as with e | q
      · rw [h2] at h; exact absurd h (by simp)
      · obtain ⟨st2i, rest2, as2i⟩ := q
        rw [h2] at h
        dsimp only at h
        simp only [Except.ok.injEq, Prod.mk.injEq] at h
        obtain ⟨hA, hB, hC⟩ := h
        subst hA
        subst hB
        rcases i with _ | j
        · exact absurd htemp (by simp [ht])
        · have hj : j < rest.length := Nat.lt_of_succ_lt_succ hi
          have hj2 : j < rest2.length := Nat.lt_of_succ_lt_succ hi2
          have htj : isTempTable (rest.get ⟨j, hj⟩) = true := htemp
          obtain ⟨r, hr1, hr2, hr3⟩ :=
            ih st as st2i rest2 as2i h2 j hj hj2 htj
          exact ⟨r, hr1, hr2, hr3⟩

/-- Claim C3, witness: the concrete temporary entry produces area 2 in the
event's venue with the entry's name/capacity/type, and the entry is
rewritten to `areaid = 2`, `id = "area-2"`. -/
theorem claim3_witness :
    ∃ r, Area.mk r ("Área " ++ tableDisplayName (exTsTemp.get ⟨0, by decide⟩))
          (jsOrInt (exTsTemp.get ⟨0, by decide⟩).capacidad 50)
          (jsOrStr (exTsTemp.get ⟨0, by decide⟩).tipo "GENERAL") 1 ∈
          exPTst.areas ∧
      (exPTts.get ⟨0, by decide⟩).areaid = some r ∧
      (exPTts.get ⟨0, by decide⟩).id = some ("area-" ++ toString r) :=
  claim3_created_area_fields 1 exTsTemp exState exAsTemp exPTst exPTts exPTas
    (by rfl) 0 (by decide) (by decide) (by decide)

/-- A single temporary seat referring to temporary area `1111111111`. -/
def exSeatT : SeatInput :=
  ⟨.undef, true, "B1", some 1, some 2, "disponible", some 1111111111,
   some 1111111111⟩

/-- `exConfTemp` after reconciliation rewrote its entry to area 2. -/
def exConfRw : LayoutConfig :=
  ⟨some [⟨some "area-2", some 2, some "Mesa 1", some 8, some "GENERAL"⟩]⟩

/-- State after reconciling `exConfTemp` plus `exSeatT` against `exState`. -/
def exStateC6 : DBState :=
  ⟨[1], [⟨1, 1⟩],
   [⟨1, "Zona A", 10, "GENERAL", 1⟩, ⟨2, "Área Mesa 1", 8, "GENERAL", 1⟩],
   [⟨5, "A1", none, none, "DISPONIBLE", 1⟩,
    ⟨6, "B1", some 1, some 2, "DISPONIBLE", 2⟩],
   [⟨1, exConfRw⟩], 3, 7⟩

/-- The seat list both the PUT response and the GET response return for
`exStateC6`. -/
def exSeatsC6 : List Asiento :=
  [⟨5, "A1", none, none, "DISPONIBLE", 1⟩,
   ⟨6, "B1", some 1, some 2, "DISPONIBLE", 2⟩]

/-- The rewrite the area loop applies to a temporary table entry that got
the real id `r`. -/
def remapEntry (t : TableEntry) (r : Int) : TableEntry :=
  { t with areaid := some r, id := some ("area-" ++ toString r) }

/-- The rewrite the delete route applies to the event's croquis row: drop
every table entry whose `areaid` equals the deleted area id (entries
without a numeric `areaid` are kept, as `undefined !== parseInt(areaID)`).
When the stored configuration has no `tables` list the row is unchanged. -/
def croquisDropArea (arID : Int) (row : CroquisRow) : CroquisRow :=
  { row with configuracion :=
      ⟨(row.configuracion.tables).map
        (fun ts => ts.filter (fun t => !decide (t.areaid = some arID)))⟩ }

/-- Concrete state for the delete route: two areas with seats, a croquis
referencing both. -/
def exStateDel : DBState :=
  ⟨[1], [⟨1, 1⟩],
   [⟨1, "Zona A", 10, "GENERAL", 1⟩, ⟨2, "Zona B", 5, "VIP", 1⟩],
   [⟨5, "A1", none, none, "DISPONIBLE", 1⟩,
    ⟨6, "B1", none, none, "DISPONIBLE", 2⟩,
    ⟨7, "B2", none, none, "OCUPADO", 2⟩],
   [⟨1, ⟨some [⟨some "area-1", some 1, some "Zona A", some 10, some "GENERAL"⟩,
               ⟨some "area-2", some 2, some "Zona B", some 5, some "VIP"⟩]⟩⟩],
   3, 8⟩

/-- The croquis row of `exStateDel`. -/
def exCroquisDel : CroquisRow :=
  ⟨1, ⟨some [⟨some "area-1", some 1, some "Zona A", some 10, some "GENERAL"⟩,
             ⟨some "area-2", some 2, some "Zona B", some 5, some "VIP"⟩]⟩⟩

/-- A seat whose (consistent) area reference matches none of the rewrite
pairs passes through the area loop unchanged. -/
theorem applyRemaps_noMatch (prs : List (Option Int × Int)) :
    ∀ (a : SeatInput), a.areaid = a.areaID →
    (∀ p ∈ prs, p.1 ≠ a.areaID) → applyRemaps prs a = a := by
  induction prs with
  | nil => intro a _ _; rfl
  | cons p ps ih =>
    intro a heq hne
    rw [applyRemaps_cons]
    have h1 : rewriteSeat p.1 p.2 a = a := by
      rw [rewriteSeat, if_neg]
      rintro (h | h)
      · exact hne p (List.mem_cons_self p ps) h.symm
      · exact hne p (List.mem_cons_self p ps) (heq ▸ h).symm
    rw [h1]
    exact ih a heq (fun q hq => hne q (List.mem_cons_of_mem p hq))

/-- A seat whose area reference equals the temporary id of exactly the
middle pair, where no earlier pair carries the same temporary id and no
later pair carries the allocated real id, ends up with both area fields
equal to that real id. -/
theorem applyRemaps_hit (pre post : List (Option Int × Int)) (T : Option Int)
    (r : Int) (a : SeatInput) (heq : a.areaid = a.areaID) (hT : a.areaID = T)
    (hpre : ∀ p ∈ pre, p.1 ≠ T) (hpost : ∀ p ∈ post, p.1 ≠ some r) :
    applyRemaps (pre ++ (T, r) :: post) a =
      { a with areaID := some r, areaid := some r } := by
  show List.foldl (fun a p => rewriteSeat p.1 p.2 a) a (pre ++ (T, r) :: post)
    = _
  rw [List.foldl_append]
  have h1 : List.foldl (fun a p => rewriteSeat p.1 p.2 a) a pre = a :=
    applyRemaps_noMatch pre a heq (fun p hp => by rw [hT]; exact hpre p hp)
  rw [h1, List.foldl_cons]
  have h2 : rewriteSeat (T, r).1 (T, r).2 a =
      { a with areaID := some r, areaid := some r } := by
    rw [rewriteSeat, if_pos]
    exact Or.inl hT
  rw [h2]
  exact applyRemaps_noMatch post _ rfl (fun q hq => hpost q hq)

/-- Every rewrite pair comes from a temporary table entry and carries that
entry's original `areaid`. -/
theorem tempPairs_mem (ts : List TableEntry) :
    ∀ (next : Int) (p : Option Int × Int), p ∈ tempPairs next ts →
    ∃ (j : Nat) (hj : j < ts.length), isTempTable (ts.get ⟨j, hj⟩) = true ∧
      p.1 = (ts.get ⟨j, hj⟩).areaid := by
  induction ts with
  | nil =>
    intro next p hp
    exact absurd hp (by simp [tempPairs])
  | cons t rest ih =>
    intro next p hp
    by_cases ht : isTempTable t
    · simp only [tempPairs, if_pos ht] at hp
      rcases List.mem_cons.1 hp with hp | hp
      · subst hp
        exact ⟨0, by simp, ht, rfl⟩
      · obtain ⟨j, hj, h1, h2⟩ := ih (next + 1) p hp
        exact ⟨j + 1, Nat.succ_lt_succ hj, h1, h2⟩
    · simp only [tempPairs, if_neg ht] at hp
      obtain ⟨j, hj, h1, h2⟩ := ih next p hp
      exact ⟨j + 1, Nat.succ_lt_succ hj, h1, h2⟩

/-- Decomposition of the rewrite pairs around the pair generated by entry
`i`: the real id `r` lies in the allocation range, the rewritten tables
carry `r` at position `i`, earlier pairs come from earlier temporary
entries and later pairs from later ones. -/
theorem tempPairs_decomp (ts : List TableEntry) :
    ∀ (next : Int) (i : Nat) (hi : i < ts.length),
    isTempTable (ts.get ⟨i, hi⟩) = true →
    ∃ pre r post,
      tempPairs next ts = pre ++ ((ts.get ⟨i, hi⟩).areaid, r) :: post ∧
      next ≤ r ∧ r < next + ts.length ∧
      (remapTables next ts).get? i = some (remapEntry (ts.get ⟨i, hi⟩) r) ∧
      (∀ p ∈ pre, ∃ (j : Nat) (hj : j < ts.length), j < i ∧
        isTempTable (ts.get ⟨j, hj⟩) = true ∧
        p.1 = (ts.get ⟨j, hj⟩).areaid) ∧
      (∀ p ∈ post, ∃ (j : Nat) (hj : j < ts.length), i < j ∧
        isTempTable (ts.get ⟨j, hj⟩) = true ∧
        p.1 = (ts.get ⟨j, hj⟩).areaid) := by
  induction ts with
  | nil =>
    intro next i hi
    exact absurd hi (by simp)
  | cons t rest ih =>
    intro next i hi htemp
    rcases i with _ | j
    · have ht : isTempTable t = true := htemp
      refine ⟨[], next, tempPairs (next + 1) rest, ?_, le_refl next, ?_,
        ?_, ?_, ?_⟩
      · simp [tempPairs, ht]
      · simp only [List.length_cons]
        push_cast
        omega
      · simp [remapTables, remapEntry, ht]
      · intro p hp
        exact absurd hp (List.not_mem_nil p)
      · intro p hp
        obtain ⟨j, hj, h1, h2⟩ := tempPairs_mem rest (next + 1) p hp
        exact ⟨j + 1, Nat.succ_lt_succ hj, Nat.succ_pos j, h1, h2⟩
    · have hj : j < rest.length := Nat.lt_of_succ_lt_succ hi
      have htj : isTempTable (rest.get ⟨j, hj⟩) = true := htemp
      by_cases ht : isTempTable t
      · obtain ⟨pre, r, post, heq, hle, hlt, hremap, hpre, hpost⟩ :=
          ih (next + 1) j hj htj
        refine ⟨(t.areaid, next) :: pre, r, post, ?_, ?_, ?_, ?_, ?_, ?_⟩
        · show tempPairs next (t :: rest) =
            ((t.areaid, next) :: pre) ++
              ((rest.get ⟨j, hj⟩).areaid, r) :: post
          simp only [tempPairs, if_pos ht, List.cons_append]
          rw [heq]
        · omega
        · simp only [List.length_cons] at hlt ⊢
          push_cast at hlt ⊢
          omega
        · show (remapTables next (t :: rest)).get? (j + 1) = _
          simp only [remapTables, if_pos ht, List.get?_cons_succ]
          exact hremap
        · intro p hp
          rcases List.mem_cons.1 hp with hp | hp
          · subst hp
            exact ⟨0, Nat.succ_pos rest.length, Nat.succ_pos j, ht, rfl⟩
          · obtain ⟨j2, hj2, hlt2, h1, h2⟩ := hpre p hp
            exact ⟨j2 + 1, Nat.succ_lt_succ hj2, Nat.succ_lt_succ hlt2,
              h1, h2⟩
        · intro p hp
          obtain ⟨j2, hj2, hlt2, h1, h2⟩ := hpost p hp
          exact ⟨j2 + 1, Nat.succ_lt_succ hj2, Nat.succ_lt_succ hlt2,
            h1, h2⟩
      · obtain ⟨pre, r, post, heq, hle, hlt, hremap, hpre, hpost⟩ :=
          ih next j hj htj
        refine ⟨pre, r, post, ?_, hle, ?_, ?_, ?_, ?_⟩
        · show tempPairs next (t :: rest) =
            pre ++ ((rest.get ⟨j, hj⟩).areaid, r) :: post
          simp only [tempPairs, if_neg ht]
          exact heq
        · simp only [List.length_cons] at hlt ⊢
          push_cast at hlt ⊢
          omega
        · show (remapTables next (t :: rest)).get? (j + 1) = _
          simp only [remapTables, if_neg ht, List.get?_cons_succ]
          exact hremap
        · intro p hp
          obtain ⟨j2, hj2, hlt2, h1, h2⟩ := hpre p hp
          exact ⟨j2 + 1, Nat.succ_lt_succ hj2, Nat.succ_lt_succ hlt2,
            h1, h2⟩
        · intro p hp
          obtain ⟨j2, hj2, hlt2, h1, h2⟩ := hpost p hp
          exact ⟨j2 + 1, Nat.succ_lt_succ hj2, Nat.succ_lt_succ hlt2,
            h1, h2⟩

/-- Claim C1: for every table entry detected as temporary (given the SERIAL
ids allocated by the run do not collide with any entry's numeric `areaid`,
temporary entries carry pairwise distinct temporary ids, and every seat's
two area-reference casings agree), the loop creates exactly one Area row
per temporary entry, rewrites that entry's `areaid` and `id` to the
allocated real id `r`, and rewrites every submitted seat whose area
reference equals the entry's temporary id to the same `r` — the rewritten
seat list is exactly what the seat-processing step receives, so no two
seats aimed at one temporary area end up under different real areas. -/
theorem claim1_consistent_remap (lugar : Int) (ts : List TableEntry)
    (st : DBState) (as : List SeatInput) (st2 : DBState)
    (ts2 : List TableEntry) (as2 : List SeatInput)
    (hok : processTables lugar st ts as = .ok (st2, ts2, as2))
    (hfresh : ∀ t ∈ ts,
      avoidsRange st.nextAreaID (st.nextAreaID + ts.length) t = true)
    (hdistinct : List.Pairwise (fun t1 t2 => isTempTable t1 = true →
      isTempTable t2 = true → t1.areaid ≠ t2.areaid) ts)
    (hseats : ∀ a ∈ as, a.areaid = a.areaID) :
    st2.areas.length = st.areas.length + ts.countP isTempTable ∧
    ∀ (i : Nat) (hi : i < ts.length) (hi2 : i < ts2.length),
      isTempTable (ts.get ⟨i, hi⟩) = true →
      ∃ r, (ts2.get ⟨i, hi2⟩).areaid = some r ∧
        (ts2.get ⟨i, hi2⟩).id = some ("area-" ++ toString r) ∧
        ∀ (k : Nat) (hk : k < as.length) (hk2 : k < as2.length),
          (as.get ⟨k, hk⟩).areaID = (ts.get ⟨i, hi⟩).areaid →
          (as2.get ⟨k, hk2⟩).areaID = some r ∧
          (as2.get ⟨k, hk2⟩).areaid = some r := by
  obtain ⟨_, _, _, _, _, hts2, has2, hlen, _, _⟩ :=
    processTables_ok_shape lugar ts st as st2 ts2 as2 hok
  subst hts2
  subst has2
  refine ⟨hlen, ?_⟩
  intro i hi hi2 htemp
  obtain ⟨pre, r, post, hpairs, hler, hltr, hremap, hpre, hpost⟩ :=
    tempPairs_decomp ts st.nextAreaID i hi htemp
  have hg : (remapTables st.nextAreaID ts).get ⟨i, hi2⟩ =
      remapEntry (ts.get ⟨i, hi⟩) r := by
    have h1 := List.get?_eq_get hi2
    rw [hremap] at h1
    exact (Option.some.inj h1).symm
  refine ⟨r, by rw [hg]; rfl, by rw [hg]; rfl, ?_⟩
  intro k hk hk2 hmatch
  have hmap : (List.map (applyRemaps (tempPairs st.nextAreaID ts)) as).get
      ⟨k, hk2⟩ = applyRemaps (tempPairs st.nextAreaID ts) (as.get ⟨k, hk⟩) := by
    simp [List.get_eq_getElem, List.getElem_map]
  have heqa : (as.get ⟨k, hk⟩).areaid = (as.get ⟨k, hk⟩).areaID :=
    hseats (as.get ⟨k, hk⟩) (List.get_mem as k hk)
  have hpre2 : ∀ p ∈ pre, p.1 ≠ (ts.get ⟨i, hi⟩).areaid := by
    intro p hp
    obtain ⟨j, hj, hlt2, htj, hpj⟩ := hpre p hp
    have hr := (List.pairwise_iff_get.1 hdistinct) ⟨j, hj⟩ ⟨i, hi⟩ hlt2
    rw [hpj]
    exact hr htj htemp
  have hpost2 : ∀ p ∈ post, p.1 ≠ some r := by
    intro p hp
    obtain ⟨j, hj, _, htj, hpj⟩ := hpost p hp
    rcases haj : (ts.get ⟨j, hj⟩).areaid with _ | m
    · rw [hpj, haj]
      simp
    · have hav := hfresh (ts.get ⟨j, hj⟩) (List.get_mem ts j hj)
      rw [avoidsRange, haj] at hav
      simp only [Bool.or_eq_true, decide_eq_true_eq] at hav
      rw [hpj, haj]
      intro hcon
      have : m = r := by
        injection hcon
      omega
  have hhit := applyRemaps_hit pre post (ts.get ⟨i, hi⟩).areaid r
    (as.get ⟨k, hk⟩) heqa hmatch hpre2 hpost2
  rw [hmap, hpairs, hhit]
  exact ⟨rfl, rfl⟩

/-- Claim C1, witness: the concrete temporary entry and the two seats
aimed at its temporary id all end up on area 2. -/
theorem claim1_witness :
    exPTst.areas.length = exState.areas.length +
      exTsTemp.countP isTempTable ∧
    ∃ r, (exPTts.get ⟨0, by decide⟩).areaid = some r ∧
      (exPTts.get ⟨0, by decide⟩).id = some ("area-" ++ toString r) ∧
      ((exPTas.get ⟨0, by decide⟩).areaID = some r ∧
        (exPTas.get ⟨0, by decide⟩).areaid = some r) ∧
      ((exPTas.get ⟨1, by decide⟩).areaID = some r ∧
        (exPTas.get ⟨1, by decide⟩).areaid = some r) := by
  obtain ⟨hlen, hmain⟩ := claim1_consistent_remap 1 exTsTemp exState exAsTemp
    exPTst exPTts exPTas (by rfl) (by decide) (by decide) (by decide)
  obtain ⟨r, h1, h2, h3⟩ := hmain 0 (by decide) (by decide) (by decide)
  exact ⟨hlen, r, h1, h2,
    h3 0 (by decide) (by decide) (by decide),
    h3 1 (by decide) (by decide) (by decide)⟩

theorem flatMap_congr (l : List α) (f g : α → List β)
    (h : ∀ a ∈ l, f a = g a) : l.flatMap f = l.flatMap g := by
  induction l with
  | nil => rfl
  | cons a rest ih =>
    simp only [List.flatMap_cons]
    rw [h a (List.mem_cons_self a rest),
      ih (fun x hx => h x (List.mem_cons_of_mem a hx))]

/-- Joining through a table whose matching rows are exactly `[L]` is the
same as instantiating at `L`; when the inner query at `L` is empty the join
is empty regardless. -/
theorem flatMap_filter_eq (lug : List Int) (L : Int) (f : Int → List α)
    (h : lug.filter (fun l => decide (L = l)) = [L] ∨ f L = []) :
    (lug.filter (fun l => decide (L = l))).flatMap f = f L := by
  rcases h with h | h
  · rw [h]
    simp
  · have hall : ∀ m : List Int, (∀ x ∈ m, f x = []) → m.flatMap f = [] := by
      intro m
      induction m with
      | nil => intro _; rfl
      | cons b bs ih =>
        intro hm
        simp only [List.flatMap_cons, hm b (List.mem_cons_self b bs),
          List.nil_append]
        exact ih (fun x hx => hm x (List.mem_cons_of_mem b hx))
    rw [h]
    apply hall
    intro x hx
    have hx2 := List.of_mem_filter hx
    simp only [decide_eq_true_eq] at hx2
    rw [← hx2]
    exact h

/-- The GET seat query (which goes through the `Lugar` table) agrees with
the PUT response's seat query whenever each relevant event's venue id
appears exactly once in `Lugar` (its primary key). -/
theorem seatsQuery_eq (st : DBState) (evID : Int)
    (h : ∀ e ∈ st.eventos, e.eventoID = evID →
      st.lugares.filter (fun l => decide (e.lugarID = l)) = [e.lugarID]) :
    seatsQueryGet st evID = seatsQueryPut st evID := by
  unfold seatsQueryGet seatsQueryPut
  congr 1
  apply flatMap_congr
  intro a _
  apply flatMap_congr
  intro ar _
  refine flatMap_filter_eq st.lugares ar.lugarID
    (fun l => (st.eventos.filter
      (fun e => decide (l = e.lugarID ∧ e.eventoID = evID))).map
      (fun _ => a)) ?_
  by_cases hemp : st.eventos.filter
      (fun e => decide (ar.lugarID = e.lugarID ∧ e.eventoID = evID)) = []
  · right
    show (st.eventos.filter
      (fun e => decide (ar.lugarID = e.lugarID ∧ e.eventoID = evID))).map
      (fun _ => a) = []
    rw [hemp]
    rfl
  · left
    obtain ⟨e, he⟩ := List.exists_mem_of_ne_nil _ hemp
    have he2 := List.of_mem_filter he
    have hee := List.mem_of_mem_filter he
    simp only [decide_eq_true_eq] at he2
    obtain ⟨hlid, hid⟩ := he2
    rw [hlid]
    exact h e hee hid

/-- Claim C6: after a successful reconcile, reading the layout through the
GET endpoint returns the same `layoutConfig` and the same seat list (same
rows, same `ORDER BY asientoID ASC` order) as the PUT response, given each
relevant event's venue id occurs exactly once in the `Lugar` table (its
primary-key integrity). -/
theorem claim6_roundtrip (st : DBState) (evID : Int)
    (conf : Option LayoutConfig) (as : List SeatInput) (st1 : DBState)
    (lc : Option LayoutConfig) (seats : List Asiento)
    (hput : putLayout st evID conf (some as) false = (st1, .ok lc seats))
    (hlug : ∀ e ∈ st1.eventos, e.eventoID = evID →
      st1.lugares.filter (fun l => decide (e.lugarID = l)) = [e.lugarID]) :
    getLayout st1 evID = .ok lc seats := by
  simp only [putLayout] at hput
  rcases hf : st.eventos.filter (fun x => decide (x.eventoID = evID))
    with _ | ⟨e, es⟩
  · rw [hf] at hput
    dsimp only at hput
    simp only [Prod.mk.injEq] at hput
    exact absurd hput.2 (by simp)
  · rw [hf] at hput
    dsimp only at hput
    rcases hr : reconcileTx e.lugarID evID st conf as with err | stm
    · rw [hr] at hput
      dsimp only at hput
      simp only [Prod.mk.injEq] at hput
      exact absurd hput.2 (by simp)
    · rw [hr] at hput
      dsimp only at hput
      simp only [Bool.false_eq_true, if_false, Prod.mk.injEq,
        PutResult.ok.injEq] at hput
      obtain ⟨h1, h2, h3⟩ := hput
      subst h1
      obtain ⟨_, hev⟩ := reconcileTx_ok_frame e.lugarID evID st conf as stm hr
      have hememb : e ∈ st.eventos.filter (fun x => decide (x.eventoID = evID)) := by
        rw [hf]
        exact List.mem_cons_self e es
      have hee : e ∈ st.eventos := List.mem_of_mem_filter hememb
      have heid : e.eventoID = evID := by
        have := List.of_mem_filter hememb
        simpa using this
      have hc : (stm.eventos.any (fun x => x.eventoID = evID)) = true := by
        rw [hev]
        exact List.any_eq_true.2 ⟨e, hee, by simp [heid]⟩
      simp only [getLayout, hc, if_true]
      rw [seatsQuery_eq stm evID hlug, h2, h3]

/-- Claim C6, witness: the concrete reconcile via PUT and an immediate GET
return the same config and seats. -/
theorem claim6_witness : getLayout exStateC6 1 = .ok (some exConfRw) exSeatsC6 :=
  claim6_roundtrip exState 1 (some exConfTemp) [exSeatT] exStateC6
    (some exConfRw) exSeatsC6 (by decide) (by decide)

/-- Effect of the croquis `UPDATE ... WHERE eventoID = $1` on the croquis
table: when the matching rows are exactly `[c0]`, the update rewrites that
row's configuration and leaves every other row unchanged. -/
theorem croquis_map_filter (evID : Int) (c2 : LayoutConfig) :
    ∀ (l : List CroquisRow) (c0 : CroquisRow),
    l.filter (fun row => decide (row.eventoID = evID)) = [c0] →
    (l.map (fun row => if row.eventoID = evID
        then { row with configuracion := c2 } else row)).filter
        (fun row => decide (row.eventoID = evID)) =
      [{ c0 with configuracion := c2 }] ∧
    (l.map (fun row => if row.eventoID = evID
        then { row with configuracion := c2 } else row)).filter
        (fun row => !decide (row.eventoID = evID)) =
      l.filter (fun row => !decide (row.eventoID = evID)) := by
  intro l
  induction l with
  | nil =>
    intro c0 hl
    exact absurd hl (by simp)
  | cons b bs ih =>
    intro c0 hl
    by_cases hb : b.eventoID = evID
    · have hpb : decide (b.eventoID = evID) = true := by simp [hb]
      rw [List.filter_cons, if_pos hpb] at hl
      injection hl with hbc hbs
      subst hbc
      have hbsnil : ∀ x ∈ bs, ¬ x.eventoID = evID := by
        intro x hx hxx
        have hmem : x ∈ bs.filter (fun row => decide (row.eventoID = evID)) :=
          List.mem_filter.2 ⟨hx, by simp [hxx]⟩
        rw [hbs] at hmem
        exact List.not_mem_nil x hmem
      have hmapbs : bs.map (fun row => if row.eventoID = evID
          then { row with configuracion := c2 } else row) = bs := by
        rw [List.map_congr_left (fun x hx => if_neg (hbsnil x hx))]
        exact List.map_id bs
      constructor
      · simp only [List.map_cons, if_pos hb, List.filter_cons, hmapbs]
        simp [hb, hbs]
      · simp only [List.map_cons, if_pos hb, List.filter_cons, hmapbs]
        simp [hb]
    · have hpb : ¬ decide (b.eventoID = evID) = true := by simp [hb]
      rw [List.filter_cons, if_neg hpb] at hl
      obtain ⟨ih1, ih2⟩ := ih c0 hl
      constructor
      · simp only [List.map_cons, if_neg hb]
        rw [List.filter_cons, if_neg hpb]
        exact ih1
      · simp only [List.map_cons, if_neg hb]
        simp [List.filter_cons, hb, ih2]

/-- Claim C7: deleting an area that belongs to the event's venue succeeds,
removes every seat under that area (the `ON DELETE CASCADE`), removes
exactly the table entries whose `areaid` equals the deleted id from the
event's layout document, and leaves every other table entry and every other
event's croquis row untouched. -/
theorem claim7_delete_area (st : DBState) (evID arID : Int) (e : Evento)
    (ar : Area) (c0 : CroquisRow)
    (hev : 0 < evID) (har : 0 < arID)
    (he : e ∈ st.eventos) (heid : e.eventoID = evID)
    (ha : ar ∈ st.areas) (haid : ar.areaID = arID)
    (hal : ar.lugarID = e.lugarID) (hl : e.lugarID ∈ st.lugares)
    (hcro : st.croquis.filter (fun row => decide (row.eventoID = evID)) = [c0]) :
    (∃ lc seats, (deleteAreaRoute st evID arID).2 = .ok lc seats) ∧
    (deleteAreaRoute st evID arID).1.areas =
      st.areas.filter (fun x => !decide (x.areaID = arID)) ∧
    (deleteAreaRoute st evID arID).1.asientos =
      st.asientos.filter (fun x => !decide (x.areaID = arID)) ∧
    (deleteAreaRoute st evID arID).1.croquis.filter
        (fun row => decide (row.eventoID = evID)) =
      [croquisDropArea arID c0] ∧
    (deleteAreaRoute st evID arID).1.croquis.filter
        (fun row => !decide (row.eventoID = evID)) =
      st.croquis.filter (fun row => !decide (row.eventoID = evID)) := by
  have c1 : ¬(evID ≤ 0 ∨ arID ≤ 0) := by omega
  have c2 : st.eventos.any (fun x => x.eventoID = evID) = true :=
    List.any_eq_true.2 ⟨e, he, by simp [heid]⟩
  have c3 : areaBelongsToEvent st arID evID = true := by
    apply List.any_eq_true.2
    refine ⟨ar, ha, ?_⟩
    simp only [Bool.and_eq_true, decide_eq_true_eq]
    refine ⟨⟨haid, ?_⟩, ?_⟩
    · exact List.any_eq_true.2 ⟨e.lugarID, hl, by simp [hal]⟩
    · exact List.any_eq_true.2 ⟨e, he, by simp [hal, heid]⟩
  have c4 : st.areas.any (fun x => x.areaID = arID) = true :=
    List.any_eq_true.2 ⟨ar, ha, by simp [haid]⟩
  simp only [deleteAreaRoute, if_neg c1, c2, c3, c4, Bool.not_true,
    Bool.false_eq_true, if_false]
  rw [hcro]
  simp only [List.head?_cons]
  rcases hts : c0.configuracion.tables with _ | ts
  · dsimp only
    refine ⟨⟨_, _, rfl⟩, rfl, rfl, ?_, rfl⟩
    have hdrop : croquisDropArea arID c0 = c0 := by
      rw [croquisDropArea, hts]
      show ({ eventoID := c0.eventoID, configuracion := ⟨none⟩ } : CroquisRow) = c0
      rw [← hts]
    rw [hdrop]
    exact hcro
  · dsimp only
    obtain ⟨hm1, hm2⟩ := croquis_map_filter evID
      ⟨some (ts.filter (fun t => !decide (t.areaid = some arID)))⟩
      st.croquis c0 hcro
    have hdrop : croquisDropArea arID c0 =
        { c0 with configuracion :=
          ⟨some (ts.filter (fun t => !decide (t.areaid = some arID)))⟩ } := by
      rw [croquisDropArea, hts]
      rfl
    refine ⟨⟨_, _, rfl⟩, rfl, rfl, ?_, hm2⟩
    rw [hdrop]
    exact hm1

/-- Claim C7, witness: deleting area 2 of the concrete state removes its
two seats and its table entry, keeping area 1's seat and entry. -/
theorem claim7_witness :
    (∃ lc seats, (deleteAreaRoute exStateDel 1 2).2 = .ok lc seats) ∧
    (deleteAreaRoute exStateDel 1 2).1.areas =
      exStateDel.areas.filter (fun x => !decide (x.areaID = 2)) ∧
    (deleteAreaRoute exStateDel 1 2).1.asientos =
      exStateDel.asientos.filter (fun x => !decide (x.areaID = 2)) ∧
    (deleteAreaRoute exStateDel 1 2).1.croquis.filter
        (fun row => decide (row.eventoID = 1)) =
      [croquisDropArea 2 exCroquisDel] ∧
    (deleteAreaRoute exStateDel 1 2).1.croquis.filter
        (fun row => !decide (row.eventoID = 1)) =
      exStateDel.croquis.filter (fun row => !decide (row.eventoID = 1)) :=
  claim7_delete_area exStateDel 1 2 ⟨1, 1⟩ ⟨2, "Zona B", 5, "VIP", 1⟩
    exCroquisDel (by decide) (by decide) (by decide) (by decide) (by decide)
    (by decide) (by decide) (by decide) (by decide)

end GEventos
